import Mathlib

/-!
# Memory Match Pro — verification of the game-state machine

Shallow embedding of the `MemoryMatchGame` class (main game logic file of
the repository).  JavaScript mutable state becomes explicit state passing
on a `GameState` structure; `Date.now()` readings and the `Math.random()`
draws of the Fisher–Yates shuffle are passed in as explicit parameters
(`now : Nat` in milliseconds, `choices : Nat → Nat` giving the drawn index
for each loop counter).  Pixel coordinates are modelled with `ℚ`.
DOM / audio / particle calls are pure presentation effects and are dropped;
`localStorage` is modelled as an explicit key-value map threaded through
`saveBestScore`.
-/

/-- The `gameState` string field: 'loading' | 'menu' | 'playing' | 'completed'. -/
inductive GState where
  | loading
  | menu
  | playing
  | completed
deriving DecidableEq

/-- The four difficulty keys of `this.difficulties`. -/
inductive Difficulty where
  | easy
  | medium
  | hard
  | expert
deriving DecidableEq

/-- One entry of the `difficulties` configuration object. -/
structure DiffConfig where
  rows : Nat
  cols : Nat
  timeBonus : Nat
deriving DecidableEq

/-- `this.difficulties = { easy: {rows:2,cols:3,timeBonus:50}, ... }`. -/
def difficulties : Difficulty → DiffConfig
  | .easy => ⟨2, 3, 50⟩
  | .medium => ⟨3, 4, 100⟩
  | .hard => ⟨4, 4, 150⟩
  | .expert => ⟨4, 6, 200⟩

/-- Difficulty key as the string used in the `bestScore_${difficulty}` key. -/
def difficultyName : Difficulty → String
  | .easy => "easy"
  | .medium => "medium"
  | .hard => "hard"
  | .expert => "expert"

/-- A card object pushed by `createCards`.  `symbol` is `Option` because
`cardData[i]` is `undefined` in JavaScript when `i` is beyond the array
length (possible when the symbol pool is too small). -/
structure Card where
  id : Nat
  symbol : Option String
  x : ℚ
  y : ℚ
  width : ℚ
  height : ℚ
  isFlipped : Bool
  isMatched : Bool
  flipTime : Nat
deriving DecidableEq

/-- The mutable fields of the `MemoryMatchGame` instance that the game
logic reads or writes.  `flippedCards` stores card ids (the JavaScript
array stores references into `this.cards`; ids are unique on generated
boards so the two views agree).  `timerId`, `liveIntervals` and
`nextTimer` model the `setInterval` handle of `startTimer`: `timerId` is
`this.timerInterval`, `liveIntervals` is the set of interval timers the
browser currently has registered, and `nextTimer` is the id the next
`setInterval` call will return (browser interval ids are positive, so the
truthiness test `if (this.timerInterval)` is `isSome`). -/
structure GameState where
  gameState : GState
  cards : List Card
  flippedCards : List Nat
  matchedPairs : Nat
  score : Int
  moves : Nat
  level : Nat
  startTime : Nat
  gameTime : Nat
  difficulty : Difficulty
  isPaused : Bool
  cardSymbols : List String
  canvasW : ℚ
  canvasH : ℚ
  choices : Nat → Nat
  timerId : Option Nat
  liveIntervals : List Nat
  nextTimer : Nat

/-- The 32-entry `this.cardSymbols` array. -/
def cardSymbols : List String :=
  ["🎯", "🎮", "🎲", "🎪", "🎨", "🎭", "🎵", "🎸",
   "🚀", "🌟", "⭐", "💎", "🔥", "⚡", "🌈", "🦄",
   "🐱", "🐶", "🐭", "🐹", "🐰", "🦊", "🐻", "🐼",
   "🍎", "🍊", "🍋", "🍌", "🍇", "🍓", "🥝", "🍑"]

/-- The constructor of `MemoryMatchGame` (DOM-independent fields).
`startTime = null` is modelled as `0`, which is how `null` coerces in the
`Date.now() - this.startTime` arithmetic. -/
def initialState (choices : Nat → Nat) (canvasW canvasH : ℚ) : GameState :=
  { gameState := .loading
    cards := []
    flippedCards := []
    matchedPairs := 0
    score := 0
    moves := 0
    level := 1
    startTime := 0
    gameTime := 0
    difficulty := .medium
    isPaused := false
    cardSymbols := cardSymbols
    canvasW := canvasW
    canvasH := canvasH
    choices := choices
    timerId := none
    liveIntervals := []
    nextTimer := 1 }

/-- One swap `[array[i], array[j]] = [array[j], array[i]]` of the
Fisher–Yates loop, on lists (`getD` with a default in place of JavaScript
indexing; the loop only ever uses in-range indices). -/
def swapL (l : List String) (i j : Nat) : List String :=
  (l.set i (l.getD j "")).set j (l.getD i "")

/-- The body of `shuffleArray`: `for (i = len-1; i > 0; i--) swap i (choice i)`,
recursing on the loop counter. -/
def shuffleGo (choice : Nat → Nat) : Nat → List String → List String
  | 0, l => l
  | i + 1, l => shuffleGo choice i (swapL l (i + 1) (choice (i + 1)))

/-- `shuffleArray(array)`: Fisher–Yates over the whole array, with the
random draw for loop counter `i` (i.e. `Math.floor(Math.random()*(i+1))`,
always in `[0, i]`) supplied by `choice i`. -/
def shuffleArray (choice : Nat → Nat) (l : List String) : List String :=
  shuffleGo choice (l.length - 1) l

/-- `createCards()`: select the first `pairsNeeded` symbols, duplicate,
shuffle, and lay the cards out on a `rows × cols` grid inside the canvas.
There is no check that the pool holds enough symbols: `slice` simply
truncates, and `cardData[i]` is `undefined` (here `none`) past its end. -/
def createCards (s : GameState) : GameState :=
  let config := difficulties s.difficulty
  let totalCards := config.rows * config.cols
  let pairsNeeded := totalCards / 2
  let selectedSymbols := s.cardSymbols.take pairsNeeded
  let cardData := shuffleArray s.choices (selectedSymbols ++ selectedSymbols)
  let cardWidth := (s.canvasW - 60) / config.cols
  let cardHeight := (s.canvasH - 60) / config.rows
  { s with cards :=
      (List.range totalCards).map fun i =>
        let row := i / config.cols
        let col := i % config.cols
        { id := i
          symbol := cardData.get? i
          x := 30 + (col : ℚ) * cardWidth
          y := 30 + (row : ℚ) * cardHeight
          width := cardWidth - 10
          height := cardHeight - 10
          isFlipped := false
          isMatched := false
          flipTime := 0 } }

/-- `calculateScore()` — §4.3 `onMatch`, reading `this.gameTime` and
`this.moves` at resolution time. -/
def calculateScore (s : GameState) : Int :=
  let config := difficulties s.difficulty
  let baseScore : Int := 100
  let timeBonus : Int := max 0 ((config.timeBonus : Int) - (s.gameTime / 1000 : Nat))
  let movesPenalty : Int := max 0 ((s.moves : Int) * 5)
  max 10 (baseScore + timeBonus - movesPenalty)

/-- `flipCard(card)`: mark the card flipped, append it to the buffer, and
if the buffer just reached length 2 increment `moves`.  (The 800ms
`setTimeout(checkMatch)` is the separate `checkMatch` step.) -/
def flipCard (now : Nat) (c : Card) (s : GameState) : GameState :=
  let s1 := { s with
    cards := s.cards.map fun d =>
      if d.id = c.id then { d with isFlipped := true, flipTime := now } else d
    flippedCards := s.flippedCards ++ [c.id] }
  if s1.flippedCards.length = 2 then { s1 with moves := s1.moves + 1 } else s1

/-- The hit test of `handleCardClick`'s `find`:
`x >= card.x && x <= card.x + card.width && y >= card.y && y <= card.y + card.height
 && !card.isFlipped && !card.isMatched`. -/
def clickHit (x y : ℚ) (c : Card) : Bool :=
  decide (c.x ≤ x) && decide (x ≤ c.x + c.width) &&
  decide (c.y ≤ y) && decide (y ≤ c.y + c.height) &&
  !c.isFlipped && !c.isMatched

/-- `handleCardClick(x, y)`. -/
def handleCardClick (now : Nat) (x y : ℚ) (s : GameState) : GameState :=
  if s.flippedCards.length ≥ 2 then s
  else
    match s.cards.find? (clickHit x y) with
    | some c => flipCard now c s
    | none => s

/-- `handleCanvasClick`, after the coordinate rescaling (a presentation
bijection), guarded on `gameState === 'playing' && !isPaused`. -/
def handleCanvasClick (now : Nat) (x y : ℚ) (s : GameState) : GameState :=
  if s.gameState ≠ .playing ∨ s.isPaused then s
  else handleCardClick now x y s

/-- `checkMatch()` (the 800ms resolution callback).  The buffer is read
back by id; `this.flippedCards = []` runs on every path.  When the buffer
does not hold exactly two resolvable cards the JavaScript destructuring
would fault before mutating anything (such a call is never scheduled), so
those arms leave the game fields untouched. -/
def checkMatch (s : GameState) : GameState :=
  match s.flippedCards with
  | [i1, i2] =>
    match s.cards.find? (fun c => c.id = i1), s.cards.find? (fun c => c.id = i2) with
    | some c1, some c2 =>
      if c1.symbol = c2.symbol then
        { s with
          cards := s.cards.map fun d =>
            if d.id = i1 ∨ d.id = i2 then { d with isMatched := true } else d
          matchedPairs := s.matchedPairs + 1
          score := s.score + calculateScore s
          flippedCards := [] }
      else
        { s with
          cards := s.cards.map fun d =>
            if d.id = i1 ∨ d.id = i2 then { d with isFlipped := false } else d
          flippedCards := [] }
    | _, _ => { s with flippedCards := [] }
  | _ => s

/-- The completion test inside `checkMatch`:
a match was found and `this.matchedPairs === this.cards.length / 2`
(after the increment), which schedules `gameComplete` 500ms later.
Generated boards always have an even number of cards, making the
JavaScript float division agree with `Nat` division here. -/
def checkMatchCompletes (s : GameState) : Bool :=
  match s.flippedCards with
  | [i1, i2] =>
    match s.cards.find? (fun c => c.id = i1), s.cards.find? (fun c => c.id = i2) with
    | some c1, some c2 =>
      decide (c1.symbol = c2.symbol) && decide (s.matchedPairs + 1 = s.cards.length / 2)
    | _, _ => false
  | _ => false

/-- `gameComplete()`: enter `completed` and add the completion time bonus
`Math.max(0, 1000 - Math.floor(this.gameTime / 1000) * 10)`.
(`saveBestScore` writes to external storage, modelled separately.) -/
def gameComplete (s : GameState) : GameState :=
  let timeBonus : Int := max 0 (1000 - ((s.gameTime / 1000 : Nat) : Int) * 10)
  { s with gameState := .completed, score := s.score + timeBonus }

/-- A full resolution step: `checkMatch` followed by the `gameComplete`
it schedules when the board is finished. -/
def resolveFlip (s : GameState) : GameState :=
  if checkMatchCompletes s then gameComplete (checkMatch s) else checkMatch s

/-- `localStorage`, restricted to the integer-valued best-score records
this game writes (always `score.toString()` of an integer). -/
def Store : Type := String → Option Int

/-- `localStorage.setItem`. -/
def setItem (k : String) (v : Int) (st : Store) : Store :=
  fun k2 => if k2 = k then some v else st k2

/-- `localStorage.getItem`. -/
def getItem (k : String) (st : Store) : Option Int :=
  st k

/-- `saveBestScore()`: `getItem(key) || 0`, then write back only when the
final score is strictly greater. -/
def saveBestScore (s : GameState) (st : Store) : Store :=
  let key := "bestScore_" ++ difficultyName s.difficulty
  let currentBest := (getItem key st).getD 0
  if s.score > currentBest then setItem key s.score st else st

/-- `togglePause()`: no-op outside `playing`, otherwise flip `isPaused`. -/
def togglePause (s : GameState) : GameState :=
  if s.gameState ≠ .playing then s else { s with isPaused := !s.isPaused }

/-- One firing of the `setInterval` callback registered by `startTimer`:
`if (!isPaused && gameState === 'playing') gameTime = Date.now() - startTime`. -/
def tick (now : Nat) (s : GameState) : GameState :=
  if !s.isPaused && s.gameState = .playing
  then { s with gameTime := now - s.startTime }
  else s

/-- `startTimer()`: clear any existing interval, then register a new one. -/
def startTimer (s : GameState) : GameState :=
  let s1 :=
    match s.timerId with
    | some t => { s with liveIntervals := s.liveIntervals.erase t }
    | none => s
  { s1 with
    timerId := some s1.nextTimer
    liveIntervals := s1.liveIntervals ++ [s1.nextTimer]
    nextTimer := s1.nextTimer + 1 }

/-- `initializeGame()`: reset the session counters and the flip buffer,
stamp `startTime`, and build a fresh board.  Note `gameTime` and
`isPaused` are *not* reset here. -/
def initializeGame (now : Nat) (s : GameState) : GameState :=
  createCards { s with
    score := 0
    moves := 0
    matchedPairs := 0
    flippedCards := []
    startTime := now }

/-- `startGame()`: enter `playing`, initialize, start the tick timer. -/
def startGame (now : Nat) (s : GameState) : GameState :=
  startTimer (initializeGame now { s with gameState := .playing })

/-- `showStartScreen()`: back to the menu (board and timer untouched). -/
def showStartScreen (s : GameState) : GameState :=
  { s with gameState := .menu }

/-- `restartGame()`. -/
def restartGame (now : Nat) (s : GameState) : GameState :=
  startGame now s

/-- `playAgain()`. -/
def playAgain (now : Nat) (s : GameState) : GameState :=
  startGame now { s with level := s.level + 1 }

/-- `newGame()`. -/
def newGame (s : GameState) : GameState :=
  showStartScreen { s with level := 1 }

/-- `selectDifficulty(level)`. -/
def selectDifficulty (d : Difficulty) (s : GameState) : GameState :=
  { s with difficulty := d }

/-- Point membership in a card's closed pixel rectangle, exactly the
spatial part of the `handleCardClick` hit test. -/
def pointInCard (x y : ℚ) (c : Card) : Prop :=
  c.x ≤ x ∧ x ≤ c.x + c.width ∧ c.y ≤ y ∧ y ≤ c.y + c.height

instance (x y : ℚ) (c : Card) : Decidable (pointInCard x y c) := by
  unfold pointInCard; infer_instance

/-- Two cards' pixel rectangles overlap: their closed coordinate
intervals intersect on both axes (equivalently, they share a point —
see `rectOverlap_iff_exists_point`). -/
def rectOverlap (c d : Card) : Prop :=
  max c.x d.x ≤ min (c.x + c.width) (d.x + d.width) ∧
  max c.y d.y ≤ min (c.y + c.height) (d.y + d.height)

instance (c d : Card) : Decidable (rectOverlap c d) := by
  unfold rectOverlap; infer_instance

/-! ## Library lemmas about the Fisher–Yates shuffle -/

theorem middle_swap_perm (x y : String) (l₁ l₂ : List String) :
    (x :: (l₁ ++ y :: l₂)).Perm (y :: (l₁ ++ x :: l₂)) :=
  ((List.Perm.cons x List.perm_middle).trans (List.Perm.swap y x _)).trans
    (List.Perm.cons y List.perm_middle.symm)

/-- A single in-range swap is a permutation. -/
theorem swapL_perm : ∀ (j i : Nat) (l : List String), j ≤ i → i < l.length →
    (swapL l i j).Perm l := by
  intro j
  induction j with
  | zero =>
    intro i l _ hi
    match l, i with
    | a :: t, 0 => simp [swapL]
    | a :: t, k + 1 =>
      have hk : k < t.length := by simpa using hi
      have h1 : swapL (a :: t) (k + 1) 0 = t.getD k "" :: t.set k a := by
        simp [swapL, List.getD]
      rw [h1]
      have hgd : t.getD k "" = t.get ⟨k, hk⟩ := by
        simp [List.getD, List.getElem?_eq_getElem hk]
      have h2 : t.set k a = t.take k ++ a :: t.drop (k + 1) :=
        List.set_eq_take_cons_drop a hk
      have h3 : a :: t = a :: (t.take k ++ t.get ⟨k, hk⟩ :: t.drop (k + 1)) := by
        congr 1
        conv_lhs => rw [← List.take_append_drop k t]
        congr 1
        rw [List.drop_eq_getElem_cons hk]
        rfl
      rw [hgd, h2, h3]
      exact middle_swap_perm _ _ _ _
  | succ m ih =>
    intro i l hj hi
    match l, i with
    | a :: t, k + 1 =>
      have hk : k < t.length := by simpa using hi
      have hm : m ≤ k := Nat.succ_le_succ_iff.mp hj
      have h1 : swapL (a :: t) (k + 1) (m + 1) = a :: swapL t k m := by
        simp [swapL, List.getD]
      rw [h1]
      exact (ih k t hm hk).cons a

theorem shuffleGo_perm (choice : Nat → Nat) (hch : ∀ i, choice i ≤ i) :
    ∀ (i : Nat) (l : List String), i < l.length → (shuffleGo choice i l).Perm l := by
  intro i
  induction i with
  | zero => intro l _; exact List.Perm.refl l
  | succ k ih =>
    intro l hi
    have hsw : (swapL l (k + 1) (choice (k + 1))).Perm l :=
      swapL_perm _ _ _ (hch (k + 1)) hi
    have hlen : (swapL l (k + 1) (choice (k + 1))).length = l.length := hsw.length_eq
    have hk : k < (swapL l (k + 1) (choice (k + 1))).length := by omega
    exact (ih _ hk).trans hsw

/-- The shuffled deck is a permutation of the input whenever each random
draw is in range (which `Math.floor(Math.random()*(i+1))` always is). -/
theorem shuffleArray_perm (choice : Nat → Nat) (hch : ∀ i, choice i ≤ i)
    (l : List String) : (shuffleArray choice l).Perm l := by
  unfold shuffleArray
  cases l with
  | nil => exact List.Perm.refl _
  | cons a t => exact shuffleGo_perm choice hch _ _ (by simp)

/-- `rectOverlap` is exactly the existence of a common point. -/
theorem rectOverlap_iff_exists_point (c d : Card) :
    rectOverlap c d ↔ ∃ x y : ℚ, pointInCard x y c ∧ pointInCard x y d := by
  constructor
  · rintro ⟨hx, hy⟩
    exact ⟨max c.x d.x, max c.y d.y,
      ⟨le_max_left _ _, le_trans hx (min_le_left _ _),
       le_max_left _ _, le_trans hy (min_le_left _ _)⟩,
      ⟨le_max_right _ _, le_trans hx (min_le_right _ _),
       le_max_right _ _, le_trans hy (min_le_right _ _)⟩⟩
  · rintro ⟨x, y, ⟨h1, h2, h3, h4⟩, ⟨h5, h6, h7, h8⟩⟩
    exact ⟨le_trans (max_le h1 h5) (le_min h2 h6),
           le_trans (max_le h3 h7) (le_min h4 h8)⟩

/-- Default card used for `getD` indexing in board statements. -/
def defaultCard : Card :=
  { id := 0, symbol := none, x := 0, y := 0, width := 0, height := 0,
    isFlipped := false, isMatched := false, flipTime := 0 }

/-- No two distinct cards of a board overlap. -/
def GeomOK (l : List Card) : Prop :=
  ∀ i k, i < l.length → k < l.length → i ≠ k →
    ¬ rectOverlap (l.getD i defaultCard) (l.getD k defaultCard)

/-! ## Geometry of the generated grid -/

/-- Two grid cells with a fixed gutter of `10` between consecutive cells
never share a coordinate interval on the axis where they differ: either
the cell extent is below `10` (the closed interval is empty) or the cells
are separated by the remaining gutter. -/
theorem interval_disjoint (cw a b : ℚ) (hab : a + 1 ≤ b) :
    ¬ (max (30 + a * cw) (30 + b * cw) ≤
       min (30 + a * cw + (cw - 10)) (30 + b * cw + (cw - 10))) := by
  intro h
  have h1 : 30 + a * cw ≤ 30 + a * cw + (cw - 10) :=
    le_trans (le_max_left _ _) (le_trans h (min_le_left _ _))
  have hcw : (0 : ℚ) ≤ cw := by linarith
  have h2 : 30 + b * cw ≤ 30 + a * cw + (cw - 10) :=
    le_trans (le_max_right _ _) (le_trans h (min_le_left _ _))
  have h3 : (a + 1) * cw ≤ b * cw := mul_le_mul_of_nonneg_right hab hcw
  have h4 : (a + 1) * cw = a * cw + cw := by ring
  linarith

theorem getD_map_range (f : Nat → Card) (n i : Nat) (h : i < n) :
    ((List.range n).map f).getD i defaultCard = f i := by
  simp [List.getD, List.getElem?_map, List.getElem?_range h]

/-- The board generated by `createCards` has pairwise non-overlapping
card rectangles, for any canvas size and any symbol pool. -/
theorem createCards_geomOK (s : GameState) : GeomOK (createCards s).cards := by
  intro i k hi hk hik
  have hlen : (createCards s).cards.length =
      (difficulties s.difficulty).rows * (difficulties s.difficulty).cols := by
    simp [createCards]
  rw [hlen] at hi hk
  show ¬ rectOverlap _ _
  rw [show (createCards s).cards = (List.range ((difficulties s.difficulty).rows *
        (difficulties s.difficulty).cols)).map _ from rfl,
      getD_map_range _ _ _ hi, getD_map_range _ _ _ hk]
  rintro ⟨hx, hy⟩
  set cols := (difficulties s.difficulty).cols with hcols
  rcases Nat.lt_trichotomy (i % cols) (k % cols) with hc | hc | hc
  · exact interval_disjoint _ _ _ (by exact_mod_cast Nat.succ_le_of_lt hc) hx
  · rcases Nat.lt_trichotomy (i / cols) (k / cols) with hr | hr | hr
    · exact interval_disjoint _ _ _ (by exact_mod_cast Nat.succ_le_of_lt hr) hy
    · refine hik ?_
      rw [← Nat.div_add_mod i cols, ← Nat.div_add_mod k cols, hc, hr]
    · rw [max_comm, min_comm] at hy
      exact interval_disjoint _ _ _ (by exact_mod_cast Nat.succ_le_of_lt hr) hy
  · rw [max_comm, min_comm] at hx
    exact interval_disjoint _ _ _ (by exact_mod_cast Nat.succ_le_of_lt hc) hx

/-! ## Contents of the generated board -/

theorem range_map_getQ {α : Type} (l : List α) :
    (List.range l.length).map (fun i => l.get? i) = l.map some := by
  induction l with
  | nil => rfl
  | cons a t ih =>
    rw [List.length_cons, List.range_succ_eq_map, List.map_cons, List.map_map,
        List.map_cons]
    refine congrArg₂ _ rfl ?_
    show (List.range t.length).map (fun i => t.get? i) = t.map some
    exact ih

/-- The board always has exactly `rows * cols` cards (whatever the pool). -/
theorem createCards_length (s : GameState) :
    (createCards s).cards.length =
      (difficulties s.difficulty).rows * (difficulties s.difficulty).cols := by
  simp [createCards]

/-- Card ids on a generated board are `0, 1, …, rows*cols - 1`. -/
theorem createCards_ids (s : GameState) :
    (createCards s).cards.map (fun c => c.id) =
      List.range ((difficulties s.difficulty).rows * (difficulties s.difficulty).cols) := by
  show ((List.range _).map _).map _ = _
  rw [List.map_map]
  show (List.range _).map (fun i => i) = _
  exact List.map_id _

/-- Every configured board has an even number of cells. -/
theorem rowsCols_even (d : Difficulty) :
    (difficulties d).rows * (difficulties d).cols / 2 +
      (difficulties d).rows * (difficulties d).cols / 2 =
    (difficulties d).rows * (difficulties d).cols := by
  cases d <;> rfl

theorem count_some_map (l : List String) (a : String) :
    (l.map some).count (some a) = l.count a := by
  induction l with
  | nil => rfl
  | cons b t ih => simp [List.count_cons, ih]

/-- The symbols on a generated board are exactly the shuffled doubled
selection, read off in board order. -/
theorem createCards_symbols (s : GameState) :
    (createCards s).cards.map (fun c => c.symbol) =
      (List.range ((difficulties s.difficulty).rows * (difficulties s.difficulty).cols)).map
        (fun i => (shuffleArray s.choices
          (s.cardSymbols.take ((difficulties s.difficulty).rows *
            (difficulties s.difficulty).cols / 2) ++
           s.cardSymbols.take ((difficulties s.difficulty).rows *
            (difficulties s.difficulty).cols / 2))).get? i) := by
  show ((List.range _).map _).map _ = _
  rw [List.map_map]
  rfl

/-- With a sufficient `Nodup` pool, every selected symbol appears on
exactly two cards of the generated board. -/
theorem createCards_count (s : GameState)
    (hpool : (difficulties s.difficulty).rows * (difficulties s.difficulty).cols / 2 ≤
      s.cardSymbols.length)
    (hnd : s.cardSymbols.Nodup)
    (hch : ∀ i, s.choices i ≤ i)
    (sym : String)
    (hsym : sym ∈ s.cardSymbols.take
      ((difficulties s.difficulty).rows * (difficulties s.difficulty).cols / 2)) :
    ((createCards s).cards.map (fun c => c.symbol)).count (some sym) = 2 := by
  set n := (difficulties s.difficulty).rows * (difficulties s.difficulty).cols with hn
  set selected := s.cardSymbols.take (n / 2) with hselected
  have hsel_len : selected.length = n / 2 := by
    rw [hselected, List.length_take]
    exact min_eq_left hpool
  have hperm : (shuffleArray s.choices (selected ++ selected)).Perm (selected ++ selected) :=
    shuffleArray_perm s.choices hch _
  have hlen2 : (shuffleArray s.choices (selected ++ selected)).length = n := by
    rw [hperm.length_eq, List.length_append, hsel_len, hn]
    exact rowsCols_even s.difficulty
  rw [createCards_symbols, ← hn, ← hselected, ← hlen2, range_map_getQ,
      count_some_map, hperm.count_eq, List.count_append]
  have hone : selected.count sym = 1 :=
    List.count_eq_one_of_mem (List.Nodup.sublist (List.take_sublist _ _) hnd) hsym
  omega

/-! ## Reachable states and the engine invariant -/

/-- Engine states reachable from the constructor plus `init()`'s
`showStartScreen`, closed under every player and timer event.  The
resolution (`checkMatch`) and completion (`gameComplete`) callbacks are
included as freely fireable steps — a superset of the real scheduler's
traces, so any invariant proved over `Reach` holds a fortiori on every
real trace. -/
inductive Reach : GameState → Prop where
  | init (choices : Nat → Nat) (w h : ℚ) :
      Reach (showStartScreen (initialState choices w h))
  | click (now : Nat) (x y : ℚ) {s : GameState} :
      Reach s → Reach (handleCanvasClick now x y s)
  | resolve {s : GameState} : Reach s → Reach (checkMatch s)
  | finish {s : GameState} : Reach s → Reach (gameComplete s)
  | timer (now : Nat) {s : GameState} : Reach s → Reach (tick now s)
  | pause {s : GameState} : Reach s → Reach (togglePause s)
  | start (now : Nat) {s : GameState} : Reach s → Reach (startGame now s)
  | restart (now : Nat) {s : GameState} : Reach s → Reach (restartGame now s)
  | again (now : Nat) {s : GameState} : Reach s → Reach (playAgain now s)
  | fresh {s : GameState} : Reach s → Reach (newGame s)
  | menu {s : GameState} : Reach s → Reach (showStartScreen s)
  | pick (d : Difficulty) {s : GameState} : Reach s → Reach (selectDifficulty d s)

/-- The interval-timer bookkeeping: before the first `startTimer` there
is no live interval; afterwards exactly the interval recorded in
`timerId` is live. -/
def TimerInv (s : GameState) : Prop :=
  (s.timerId = none ∧ s.liveIntervals = []) ∨
  (∃ t, s.timerId = some t ∧ s.liveIntervals = [t])

/-- The master engine invariant: the flip buffer has at most two
entries, interval timers are single, and board rectangles never
overlap. -/
def EngineInv (s : GameState) : Prop :=
  s.flippedCards.length ≤ 2 ∧ TimerInv s ∧ GeomOK s.cards

theorem geomOK_map_flag (l : List Card) (f : Card → Card)
    (hx : ∀ c, (f c).x = c.x) (hy : ∀ c, (f c).y = c.y)
    (hw : ∀ c, (f c).width = c.width) (hh : ∀ c, (f c).height = c.height)
    (h : GeomOK l) : GeomOK (l.map f) := by
  intro i k hi hk hik
  rw [List.length_map] at hi hk
  have e : ∀ m, m < l.length →
      (l.map f).getD m defaultCard = f (l.getD m defaultCard) := by
    intro m hm
    simp [List.getD, List.getElem?_map, List.getElem?_eq_getElem hm]
  rw [e i hi, e k hk]
  intro hov
  apply h i k hi hk hik
  unfold rectOverlap at hov ⊢
  rw [hx, hx, hy, hy, hw, hw, hh, hh] at hov
  exact hov

theorem inv_startTimer {s : GameState} (h : EngineInv s) : EngineInv (startTimer s) := by
  obtain ⟨hb, ht, hg⟩ := h
  unfold startTimer
  rcases ht with ⟨h1, h2⟩ | ⟨t, h1, h2⟩ <;> rw [h1] <;>
    exact ⟨hb, Or.inr ⟨_, rfl, by simp [h2]⟩, hg⟩

theorem inv_startGame {s : GameState} (now : Nat) (h : EngineInv s) :
    EngineInv (startGame now s) := by
  refine inv_startTimer ⟨Nat.zero_le 2, h.2.1, ?_⟩
  exact createCards_geomOK _

theorem inv_flipCard {s : GameState} (now : Nat) (c : Card)
    (hlen : s.flippedCards.length ≤ 1) (h : EngineInv s) : EngineInv (flipCard now c s) := by
  obtain ⟨_, ht, hg⟩ := h
  have hg2 : GeomOK (s.cards.map fun d =>
      if d.id = c.id then { d with isFlipped := true, flipTime := now } else d) := by
    refine geomOK_map_flag _ _ ?_ ?_ ?_ ?_ hg <;>
      · intro d
        by_cases hd : d.id = c.id <;> simp [hd]
  have hb2 : (s.flippedCards ++ [c.id]).length ≤ 2 := by
    rw [List.length_append, List.length_cons, List.length_nil]
    omega
  simp only [flipCard]
  split <;> exact ⟨hb2, ht, hg2⟩

theorem inv_click {s : GameState} (now : Nat) (x y : ℚ) (h : EngineInv s) :
    EngineInv (handleCanvasClick now x y s) := by
  unfold handleCanvasClick
  split
  · exact h
  · unfold handleCardClick
    split
    · exact h
    · rename_i hlen
      cases hfind : s.cards.find? (clickHit x y) with
      | none => exact h
      | some c => exact inv_flipCard now c (by omega) h

theorem inv_checkMatch {s : GameState} (h : EngineInv s) : EngineInv (checkMatch s) := by
  obtain ⟨hb, ht, hg⟩ := h
  unfold checkMatch
  split
  · rename_i i1 i2 heq
    split
    · rename_i c1 c2 h1 h2
      split <;>
        · refine ⟨by simp, ht, ?_⟩
          refine geomOK_map_flag _ _ ?_ ?_ ?_ ?_ hg <;>
            · intro d
              by_cases hd : d.id = i1 ∨ d.id = i2 <;> simp [hd]
    · exact ⟨by simp, ht, hg⟩
  · exact ⟨hb, ht, hg⟩

theorem inv_tick {s : GameState} (now : Nat) (h : EngineInv s) : EngineInv (tick now s) := by
  unfold tick
  split <;> exact h

theorem inv_togglePause {s : GameState} (h : EngineInv s) : EngineInv (togglePause s) := by
  unfold togglePause
  split <;> exact h

/-- Every reachable state satisfies the master invariant. -/
theorem reach_inv {s : GameState} (h : Reach s) : EngineInv s := by
  induction h with
  | init choices w hh =>
    refine ⟨Nat.zero_le 2, Or.inl ⟨rfl, rfl⟩, ?_⟩
    intro i k hi
    simp [showStartScreen, initialState] at hi
  | click now x y _ ih => exact inv_click now x y ih
  | resolve _ ih => exact inv_checkMatch ih
  | finish _ ih => exact ih
  | timer now _ ih => exact inv_tick now ih
  | pause _ ih => exact inv_togglePause ih
  | start now _ ih => exact inv_startGame now ih
  | restart now _ ih => exact inv_startGame now ih
  | again now _ ih => exact inv_startGame now ih
  | fresh _ ih => exact ih
  | menu _ ih => exact ih
  | pick d _ ih => exact ih

/-! ## Lookup lemmas for id-indexed boards -/

theorem clickHit_iff (x y : ℚ) (c : Card) :
    clickHit x y c = true ↔
      pointInCard x y c ∧ c.isFlipped = false ∧ c.isMatched = false := by
  unfold clickHit pointInCard
  simp only [Bool.and_eq_true, decide_eq_true_iff, Bool.not_eq_true']
  tauto

theorem map_ids_of_preserve (l : List Card) (g : Card → Card)
    (hg : ∀ c, (g c).id = c.id) :
    (l.map g).map (fun c => c.id) = l.map (fun c => c.id) := by
  rw [List.map_map]
  refine List.map_congr_left ?_
  intro c _
  exact hg c

/-- On a board with `Nodup` ids, looking a member card up by id through
an id-preserving update returns exactly the updated card. -/
theorem find?_id_map (l : List Card) (g : Card → Card) (hg : ∀ c, (g c).id = c.id)
    (hnd : (l.map (fun c => c.id)).Nodup) {a : Card} (ha : a ∈ l) :
    (l.map g).find? (fun d => d.id = a.id) = some (g a) := by
  induction l with
  | nil => cases ha
  | cons x t ih =>
    rw [List.map_cons]
    rcases List.mem_cons.mp ha with rfl | hat
    · exact List.find?_cons_of_pos _ (by simp [hg])
    · have hx : x.id ∉ t.map (fun c => c.id) := (List.nodup_cons.mp hnd).1
      have hne : x.id ≠ a.id := fun h => hx (h ▸ List.mem_map_of_mem _ hat)
      rw [List.find?_cons_of_neg _ (by simp [hg, hne])]
      exact ih (List.nodup_cons.mp hnd).2 hat

/-- Special case: looking a member card up by id on the board itself. -/
theorem find?_id_self (l : List Card)
    (hnd : (l.map (fun c => c.id)).Nodup) {a : Card} (ha : a ∈ l) :
    l.find? (fun d => d.id = a.id) = some a := by
  have h := find?_id_map l (fun c => c) (fun _ => rfl) hnd ha
  simpa using h

theorem id_inj_of_nodup (l : List Card) (hnd : (l.map (fun c => c.id)).Nodup) :
    ∀ c ∈ l, ∀ d ∈ l, c.id = d.id → c = d := by
  induction l with
  | nil => intro c hc; cases hc
  | cons x t ih =>
    intro c hc d hd he
    have h1 := (List.nodup_cons.mp hnd).1
    have h2 := (List.nodup_cons.mp hnd).2
    rcases List.mem_cons.mp hc with rfl | hct <;>
      rcases List.mem_cons.mp hd with rfl | hdt
    · rfl
    · exact absurd (show c.id ∈ t.map (fun c => c.id) from
        he ▸ List.mem_map_of_mem _ hdt) h1
    · exact absurd (show d.id ∈ t.map (fun c => c.id) from
        he ▸ List.mem_map_of_mem _ hct) h1
    · exact ih h2 c hct d hdt he

/-- A click whose point lies on a flipped or matched card changes
nothing: on a non-overlapping board no other card contains the point, so
the `find` inside `handleCardClick` comes back empty. -/
theorem click_noop_of_nonselectable {s : GameState}
    (hgeom : GeomOK s.cards) (now : Nat) (x y : ℚ) (i : Nat)
    (hi : i < s.cards.length)
    (hflag : (s.cards.getD i defaultCard).isMatched = true ∨
             (s.cards.getD i defaultCard).isFlipped = true)
    (hpt : pointInCard x y (s.cards.getD i defaultCard)) :
    handleCanvasClick now x y s = s := by
  unfold handleCanvasClick
  split
  · rfl
  · unfold handleCardClick
    split
    · rfl
    · have hnone : s.cards.find? (clickHit x y) = none := by
        rw [List.find?_eq_none]
        intro c hc hhit
        obtain ⟨hptc, hfl, hma⟩ := (clickHit_iff x y c).mp hhit
        obtain ⟨k, hk, hck⟩ := List.mem_iff_getElem.mp hc
        have hgd : s.cards.getD k defaultCard = c := by
          simp [List.getD, List.getElem?_eq_getElem hk, hck]
        by_cases hki : k = i
        · subst hki
          rw [hgd] at hflag
          rcases hflag with h | h
          · rw [hma] at h; cases h
          · rw [hfl] at h; cases h
        · refine hgeom k i hk hi hki ?_
          rw [hgd]
          exact (rectOverlap_iff_exists_point _ _).mpr ⟨x, y, hptc, hpt⟩
      rw [hnone]

/-! ## Concrete states used to instantiate the hypotheses of the claims -/

/-- A degenerate random source: every draw picks index `0` (a legal value
of `Math.floor(Math.random()*(i+1))` for every `i`). -/
def chZero : Nat → Nat := fun _ => 0

/-- The engine right after `init()` finished: constructor state followed
by `showStartScreen`, on a 860×660 canvas. -/
def sMenu : GameState := showStartScreen (initialState chZero 860 660)

/-- A card used to instantiate resolution scenarios. -/
def cardA0 : Card :=
  { id := 0, symbol := some "A", x := 0, y := 0, width := 5, height := 5,
    isFlipped := true, isMatched := false, flipTime := 0 }

/-- Same symbol as `cardA0`, different id and position. -/
def cardA1 : Card :=
  { id := 1, symbol := some "A", x := 10, y := 0, width := 5, height := 5,
    isFlipped := true, isMatched := false, flipTime := 0 }

/-- A game state one resolution away: two cards flipped, buffer full. -/
def sResolve (c2 : Card) : GameState :=
  { gameState := .playing, cards := [cardA0, c2], flippedCards := [0, 1],
    matchedPairs := 0, score := 0, moves := 1, level := 1, startTime := 0,
    gameTime := 0, difficulty := .easy, isPaused := false,
    cardSymbols := cardSymbols, canvasW := 860, canvasH := 660,
    choices := chZero, timerId := some 1, liveIntervals := [1], nextTimer := 2 }

/-! ## The claims -/

/-- C1: in the Playing phase with exactly two equal-symbol cards in the
flip buffer, resolution marks both cards matched, increments
`matchedPairs` by 1, empties the flip buffer, and increases `score` by
exactly `max(10, 100 + max(0, timeBonusBase − ⌊elapsed/1000⌋) − max(0, moves·5))`,
where `moves` already counts the resolved pair. -/
theorem claim_C1 (s : GameState) (i1 i2 : Nat) (c1 c2 : Card)
    (hphase : s.gameState = .playing)
    (hbuf : s.flippedCards = [i1, i2])
    (h1 : s.cards.find? (fun c => c.id = i1) = some c1)
    (h2 : s.cards.find? (fun c => c.id = i2) = some c2)
    (hsym : c1.symbol = c2.symbol) :
    (∀ c ∈ (checkMatch s).cards, (c.id = i1 ∨ c.id = i2) → c.isMatched = true) ∧
    (checkMatch s).matchedPairs = s.matchedPairs + 1 ∧
    (checkMatch s).flippedCards = [] ∧
    (checkMatch s).score = s.score +
      max 10 (100 + max 0 (((difficulties s.difficulty).timeBonus : Int) -
        (s.gameTime / 1000 : Nat)) - max 0 ((s.moves : Int) * 5)) := by
  simp only [checkMatch, hbuf, h1, h2]
  rw [if_pos hsym]
  refine ⟨?_, rfl, rfl, rfl⟩
  intro c hc hid
  obtain ⟨c0, hc0, rfl⟩ := List.mem_map.mp hc
  by_cases h : c0.id = i1 ∨ c0.id = i2
  · simp [h]
  · rw [if_neg h] at hid
    exact absurd hid h

/-- C1 witness: a concrete matching resolution. -/
theorem claim_C1_witness :
    (checkMatch (sResolve cardA1)).matchedPairs = 1 ∧
    (checkMatch (sResolve cardA1)).flippedCards = [] ∧
    (checkMatch (sResolve cardA1)).score =
      0 + max 10 (100 + max 0 ((50 : Int) - 0) - max 0 ((1 : Int) * 5)) := by
  have h := claim_C1 (sResolve cardA1) 0 1 cardA0 cardA1 rfl rfl
    (by decide) (by decide) rfl
  exact ⟨h.2.1, h.2.2.1, h.2.2.2⟩

/-- C2: in every reachable state the flip buffer has at most two
entries, and a click landing on a matched (or revealed) card is a silent
no-op: the whole state is unchanged. -/
theorem claim_C2 (s : GameState) (hs : Reach s) :
    s.flippedCards.length ≤ 2 ∧
    (∀ (now : Nat) (x y : ℚ) (i : Nat), i < s.cards.length →
      ((s.cards.getD i defaultCard).isMatched = true ∨
       (s.cards.getD i defaultCard).isFlipped = true) →
      pointInCard x y (s.cards.getD i defaultCard) →
      handleCanvasClick now x y s = s) := by
  obtain ⟨hb, _, hg⟩ := reach_inv hs
  exact ⟨hb, fun now x y i hi hflag hpt =>
    click_noop_of_nonselectable hg now x y i hi hflag hpt⟩

/-- C2 witness: the buffer bound at a freshly started game. -/
theorem claim_C2_witness :
    (startGame 5 sMenu).flippedCards.length ≤ 2 :=
  (claim_C2 (startGame 5 sMenu) (Reach.start 5 (Reach.init chZero 860 660))).1

/-- C3: selecting two different-symbol cards and resolving flips both
back face-down, leaves them unmatched, leaves `score` and `matchedPairs`
unchanged, empties the buffer, and leaves `moves` exactly one above its
value before the two cards were selected. -/
theorem claim_C3 (s : GameState) (now1 now2 : Nat) (x1 y1 x2 y2 : ℚ)
    (a b : Card)
    (hphase : s.gameState = .playing)
    (hpause : s.isPaused = false)
    (hbuf : s.flippedCards = [])
    (hnd : (s.cards.map (fun c => c.id)).Nodup)
    (hf1 : s.cards.find? (clickHit x1 y1) = some a)
    (hf2 : (handleCanvasClick now1 x1 y1 s).cards.find? (clickHit x2 y2) = some b)
    (hsym : a.symbol ≠ b.symbol) :
    (checkMatch (handleCanvasClick now2 x2 y2 (handleCanvasClick now1 x1 y1 s))).moves
        = s.moves + 1 ∧
    (checkMatch (handleCanvasClick now2 x2 y2 (handleCanvasClick now1 x1 y1 s))).score
        = s.score ∧
    (checkMatch (handleCanvasClick now2 x2 y2 (handleCanvasClick now1 x1 y1 s))).matchedPairs
        = s.matchedPairs ∧
    (checkMatch (handleCanvasClick now2 x2 y2 (handleCanvasClick now1 x1 y1 s))).flippedCards
        = [] ∧
    (∀ c ∈ (checkMatch (handleCanvasClick now2 x2 y2
        (handleCanvasClick now1 x1 y1 s))).cards,
      (c.id = a.id ∨ c.id = b.id) → c.isFlipped = false ∧ c.isMatched = false) := by
  -- the two flip updates and the flip-back update
  set fA : Card → Card := fun d =>
    if d.id = a.id then { d with isFlipped := true, flipTime := now1 } else d with hfA
  set fB : Card → Card := fun d =>
    if d.id = b.id then { d with isFlipped := true, flipTime := now2 } else d with hfB
  have hfA_id : ∀ d, (fA d).id = d.id := by
    intro d
    by_cases h : d.id = a.id <;> simp [hfA, h]
  have hfB_id : ∀ d, (fB d).id = d.id := by
    intro d
    by_cases h : d.id = b.id <;> simp [hfB, h]
  -- facts about the first selected card
  have ha_mem : a ∈ s.cards := List.mem_of_find?_eq_some hf1
  obtain ⟨_, ha_fl, ha_ma⟩ := (clickHit_iff x1 y1 a).mp (List.find?_some hf1)
  have hfAa : fA a = { a with isFlipped := true, flipTime := now1 } := by
    simp [hfA]
  -- the first click is a flip of `a`
  have hs1 : handleCanvasClick now1 x1 y1 s =
      { s with cards := s.cards.map fA, flippedCards := [a.id] } := by
    unfold handleCanvasClick
    rw [if_neg (by simp [hphase, hpause])]
    unfold handleCardClick
    rw [if_neg (by simp [hbuf]), hf1]
    show flipCard now1 a s = _
    simp only [flipCard, hbuf]
    rw [if_neg (by simp)]
    rfl
  -- facts about the second selected card
  have hb_mem1 : b ∈ (s.cards.map fA) := by
    have h := List.mem_of_find?_eq_some hf2
    rwa [hs1] at h
  obtain ⟨_, hb_fl, hb_ma⟩ := (clickHit_iff x2 y2 b).mp (List.find?_some hf2)
  have hnd1 : ((s.cards.map fA).map (fun c => c.id)).Nodup := by
    rw [map_ids_of_preserve _ _ hfA_id]
    exact hnd
  -- `b` is in fact an untouched member of the original board
  obtain ⟨b0, hb0_mem, hb0_eq⟩ := List.mem_map.mp hb_mem1
  have hab : b.id ≠ a.id := by
    intro hid
    have hfa_mem : fA a ∈ s.cards.map fA := List.mem_map_of_mem fA ha_mem
    have hba : b = fA a :=
      id_inj_of_nodup _ hnd1 b hb_mem1 (fA a) hfa_mem (by rw [hfA_id a, hid])
    rw [hba, hfAa] at hb_fl
    cases hb_fl
  have hb0_id : b0.id = b.id := by rw [← hb0_eq, hfA_id]
  have hb0_ne : b0.id ≠ a.id := by rw [hb0_id]; exact hab
  have hfAb0 : fA b0 = b0 := by
    simp only [hfA]
    rw [if_neg hb0_ne]
  have hb_eq_b0 : b = b0 := by rw [← hb0_eq, hfAb0]
  have hb_mem : b ∈ s.cards := hb_eq_b0 ▸ hb0_mem
  have hfA_b : fA b = b := by
    simp only [hfA]
    rw [if_neg hab]
  -- the second click flips `b` and bumps `moves`
  have hf2s := hs1 ▸ hf2
  have hs2 : handleCanvasClick now2 x2 y2 (handleCanvasClick now1 x1 y1 s) =
      { s with cards := (s.cards.map fA).map fB,
               flippedCards := [a.id, b.id],
               moves := s.moves + 1 } := by
    rw [hs1]
    unfold handleCanvasClick
    rw [if_neg (by simp [hphase, hpause])]
    unfold handleCardClick
    rw [if_neg (by simp), hf2s]
    show flipCard now2 b _ = _
    simp only [flipCard]
    rw [if_pos (by simp)]
    rfl
  -- resolution: the two buffered cards are looked up and mismatch
  have hfind1 : ((s.cards.map fA).map fB).find? (fun c => c.id = a.id) =
      some (fB (fA a)) := by
    have h := find?_id_map (s.cards.map fA) fB hfB_id hnd1
      (List.mem_map_of_mem fA ha_mem)
    rw [hfA_id a] at h
    exact h
  have hfind2 : ((s.cards.map fA).map fB).find? (fun c => c.id = b.id) =
      some (fB b) :=
    find?_id_map (s.cards.map fA) fB hfB_id hnd1 hb_mem1
  have hfBb : fB b = { b with isFlipped := true, flipTime := now2 } := by
    simp [hfB]
  have hfBfAa : fB (fA a) = { a with isFlipped := true, flipTime := now1 } := by
    rw [hfAa]
    simp only [hfB]
    rw [if_neg (fun h => hab h.symm)]
  have hsym2 : (fB (fA a)).symbol ≠ (fB b).symbol := by
    rw [hfBfAa, hfBb]
    exact hsym
  rw [hs2]
  simp only [checkMatch, hfind1, hfind2]
  rw [if_neg hsym2]
  refine ⟨rfl, rfl, rfl, rfl, ?_⟩
  intro c hc hid
  set gU : Card → Card := fun d =>
    if d.id = a.id ∨ d.id = b.id then { d with isFlipped := false } else d with hgU
  have hgU_id : ∀ d, (gU d).id = d.id := by
    intro d
    by_cases h : d.id = a.id ∨ d.id = b.id <;> simp [hgU, h]
  simp only [List.map_map] at hc
  obtain ⟨c0, hc0_mem, rfl⟩ := List.mem_map.mp hc
  have hcid : ((gU ∘ fB ∘ fA) c0).id = c0.id := by
    show (gU (fB (fA c0))).id = c0.id
    rw [hgU_id, hfB_id, hfA_id]
  have hid0 : c0.id = a.id ∨ c0.id = b.id := by
    rcases hid with h | h
    · exact Or.inl (hcid ▸ h)
    · exact Or.inr (hcid ▸ h)
  have hgUa : ∀ d : Card, d.id = a.id ∨ d.id = b.id →
      gU d = { d with isFlipped := false } := by
    intro d hd
    simp only [hgU]
    rw [if_pos hd]
  rcases hid0 with h0 | h0
  · have hc0a : c0 = a := id_inj_of_nodup _ hnd c0 hc0_mem a ha_mem h0
    rw [hc0a]
    show (gU (fB (fA a))).isFlipped = false ∧ (gU (fB (fA a))).isMatched = false
    rw [hfBfAa, hgUa { a with isFlipped := true, flipTime := now1 } (Or.inl rfl)]
    exact ⟨rfl, ha_ma⟩
  · have hc0b : c0 = b := id_inj_of_nodup _ hnd c0 hc0_mem b hb_mem h0
    rw [hc0b]
    show (gU (fB (fA b))).isFlipped = false ∧ (gU (fB (fA b))).isMatched = false
    rw [hfA_b, hfBb, hgUa { b with isFlipped := true, flipTime := now2 } (Or.inr rfl)]
    exact ⟨rfl, hb_ma⟩

/-- Face-down card with symbol "A" at the origin, for the C3 scenario. -/
def cardX : Card :=
  { id := 0, symbol := some "A", x := 0, y := 0, width := 5, height := 5,
    isFlipped := false, isMatched := false, flipTime := 0 }

/-- Face-down card with symbol "B" next to `cardX`. -/
def cardY : Card :=
  { id := 1, symbol := some "B", x := 10, y := 0, width := 5, height := 5,
    isFlipped := false, isMatched := false, flipTime := 0 }

/-- A playing state with two face-down cards and an empty flip buffer. -/
def sTwo : GameState :=
  { gameState := .playing, cards := [cardX, cardY], flippedCards := [],
    matchedPairs := 0, score := 0, moves := 0, level := 1, startTime := 0,
    gameTime := 0, difficulty := .easy, isPaused := false,
    cardSymbols := cardSymbols, canvasW := 860, canvasH := 660,
    choices := chZero, timerId := some 1, liveIntervals := [1], nextTimer := 2 }

/-- C3 witness: clicking the two mismatching cards of `sTwo` and
resolving. -/
theorem claim_C3_witness :
    (checkMatch (handleCanvasClick 200 11 1 (handleCanvasClick 100 1 1 sTwo))).moves
        = sTwo.moves + 1 ∧
    (checkMatch (handleCanvasClick 200 11 1 (handleCanvasClick 100 1 1 sTwo))).score
        = sTwo.score ∧
    (checkMatch (handleCanvasClick 200 11 1 (handleCanvasClick 100 1 1 sTwo))).matchedPairs
        = sTwo.matchedPairs ∧
    (checkMatch (handleCanvasClick 200 11 1 (handleCanvasClick 100 1 1 sTwo))).flippedCards
        = [] := by
  have hX : clickHit 1 1 cardX = true :=
    (clickHit_iff 1 1 cardX).mpr ⟨by norm_num [cardX, pointInCard], rfl, rfl⟩
  have hf1 : sTwo.cards.find? (clickHit 1 1) = some cardX := by
    show ([cardX, cardY] : List Card).find? (clickHit 1 1) = some cardX
    exact List.find?_cons_of_pos _ hX
  have e1 : handleCanvasClick 100 1 1 sTwo = flipCard 100 cardX sTwo := by
    unfold handleCanvasClick
    rw [if_neg (by decide)]
    unfold handleCardClick
    rw [if_neg (by decide), hf1]
  have e1c : (handleCanvasClick 100 1 1 sTwo).cards =
      [{ cardX with isFlipped := true, flipTime := 100 }, cardY] := by
    rw [e1]
    decide
  have hno : ¬ clickHit 11 1 { cardX with isFlipped := true, flipTime := 100 } = true := by
    simp [clickHit, cardX]
  have hY : clickHit 11 1 cardY = true :=
    (clickHit_iff 11 1 cardY).mpr ⟨by norm_num [cardY, pointInCard], rfl, rfl⟩
  have hf2 : (handleCanvasClick 100 1 1 sTwo).cards.find? (clickHit 11 1) = some cardY := by
    rw [e1c, List.find?_cons_of_neg _ hno, List.find?_cons_of_pos _ hY]
  have h := claim_C3 sTwo 100 200 1 1 11 1 cardX cardY rfl rfl rfl
    (by decide) hf1 hf2 (by decide)
  exact ⟨h.1, h.2.1, h.2.2.1, h.2.2.2.1⟩

/-- C4: when a match brings `matchedPairs` up to the total pair count,
the engine moves to the Completed phase and adds, once, the completion
bonus `max(0, 1000 − ⌊elapsed/1000⌋·10)` on top of the accumulated match
scores. -/
theorem claim_C4 (s : GameState) (i1 i2 : Nat) (c1 c2 : Card)
    (hphase : s.gameState = .playing)
    (hbuf : s.flippedCards = [i1, i2])
    (h1 : s.cards.find? (fun c => c.id = i1) = some c1)
    (h2 : s.cards.find? (fun c => c.id = i2) = some c2)
    (hsym : c1.symbol = c2.symbol)
    (hlast : s.matchedPairs + 1 = s.cards.length / 2) :
    (resolveFlip s).gameState = .completed ∧
    (resolveFlip s).matchedPairs = s.cards.length / 2 ∧
    (resolveFlip s).score = s.score + calculateScore s +
      max 0 (1000 - ((s.gameTime / 1000 : Nat) : Int) * 10) := by
  have hcomp : checkMatchCompletes s = true := by
    simp only [checkMatchCompletes, hbuf, h1, h2]
    simp [hsym, hlast]
  unfold resolveFlip
  rw [if_pos hcomp]
  simp only [checkMatch, hbuf, h1, h2]
  rw [if_pos hsym]
  refine ⟨rfl, ?_, rfl⟩
  show s.matchedPairs + 1 = s.cards.length / 2
  exact hlast

/-- C4 witness: the final matching resolution of a one-pair board. -/
theorem claim_C4_witness :
    (resolveFlip (sResolve cardA1)).gameState = .completed ∧
    (resolveFlip (sResolve cardA1)).matchedPairs = 1 ∧
    (resolveFlip (sResolve cardA1)).score =
      0 + calculateScore (sResolve cardA1) + max 0 (1000 - 0 * 10) := by
  have h := claim_C4 (sResolve cardA1) 0 1 cardA0 cardA1 rfl rfl
    (by decide) (by decide) rfl (by decide)
  exact ⟨h.1, h.2.1, h.2.2⟩

/-- A menu state whose symbol pool is far too small for its difficulty
(medium needs 6 distinct symbols, the pool has 1). -/
def sShort : GameState :=
  { gameState := .menu, cards := [], flippedCards := [], matchedPairs := 0,
    score := 0, moves := 0, level := 1, startTime := 0, gameTime := 0,
    difficulty := .medium, isPaused := false, cardSymbols := ["A"],
    canvasW := 860, canvasH := 660, choices := chZero, timerId := none,
    liveIntervals := [], nextTimer := 1 }

/-- C5 counterexample: with a pool smaller than `rows*cols/2`,
`startGame` does *not* fail and does *not* stay in the Menu phase — there
is no `InsufficientSymbols` check anywhere in the code; the engine goes
straight to Playing on a defective board. -/
theorem claim_C5_counterexample :
    sShort.cardSymbols.length <
      (difficulties sShort.difficulty).rows * (difficulties sShort.difficulty).cols / 2 ∧
    (startGame 0 sShort).gameState = .playing ∧
    (startGame 0 sShort).gameState ≠ .menu := by
  refine ⟨by decide, rfl, by decide⟩

theorem startTimer_gameState (s : GameState) :
    (startTimer s).gameState = s.gameState := by
  unfold startTimer
  rcases hti : s.timerId with _ | t <;> simp [hti]

theorem startTimer_cards (s : GameState) :
    (startTimer s).cards = s.cards := by
  unfold startTimer
  rcases hti : s.timerId with _ | t <;> simp [hti]

/-- With a pool too small for the grid, every card past index
`2·poolSize` of the generated board carries an undefined symbol. -/
theorem createCards_symbol_none (s : GameState)
    (hshort : s.cardSymbols.length <
      (difficulties s.difficulty).rows * (difficulties s.difficulty).cols / 2)
    (hch : ∀ i, s.choices i ≤ i)
    (i : Nat) (hlow : 2 * s.cardSymbols.length ≤ i)
    (hi : i < (difficulties s.difficulty).rows * (difficulties s.difficulty).cols) :
    ((createCards s).cards.getD i defaultCard).symbol = none := by
  rw [show (createCards s).cards
        = (List.range ((difficulties s.difficulty).rows *
            (difficulties s.difficulty).cols)).map _ from rfl,
      getD_map_range _ _ _ hi]
  show (shuffleArray s.choices _).get? i = none
  have hsel : (s.cardSymbols.take ((difficulties s.difficulty).rows *
      (difficulties s.difficulty).cols / 2)).length = s.cardSymbols.length := by
    rw [List.length_take]
    omega
  have hperm := shuffleArray_perm s.choices hch
    ((s.cardSymbols.take ((difficulties s.difficulty).rows *
        (difficulties s.difficulty).cols / 2)) ++
     (s.cardSymbols.take ((difficulties s.difficulty).rows *
        (difficulties s.difficulty).cols / 2)))
  have hlen : (shuffleArray s.choices
      ((s.cardSymbols.take ((difficulties s.difficulty).rows *
          (difficulties s.difficulty).cols / 2)) ++
       (s.cardSymbols.take ((difficulties s.difficulty).rows *
          (difficulties s.difficulty).cols / 2)))).length
        = 2 * s.cardSymbols.length := by
    rw [hperm.length_eq, List.length_append, hsel]
    omega
  rw [List.get?_eq_getElem?]
  exact List.getElem?_eq_none (by rw [hlen]; omega)

/-- C5 amended: `startGame` with an insufficient symbol pool does not
fail and does not stay in `Menu`: `createCards` silently truncates the
selection, the engine enters Playing on a full-size board whose cards
beyond index `2·poolSize` carry an undefined (`none`) symbol. -/
theorem claim_C5 (s : GameState) (now : Nat)
    (hshort : s.cardSymbols.length <
      (difficulties s.difficulty).rows * (difficulties s.difficulty).cols / 2)
    (hch : ∀ i, s.choices i ≤ i) :
    (startGame now s).gameState = .playing ∧
    (startGame now s).cards.length =
      (difficulties s.difficulty).rows * (difficulties s.difficulty).cols ∧
    (∀ i, 2 * s.cardSymbols.length ≤ i → i < (startGame now s).cards.length →
      ((startGame now s).cards.getD i defaultCard).symbol = none) := by
  have e : (startGame now s).cards.length =
      (difficulties s.difficulty).rows * (difficulties s.difficulty).cols := by
    show (startTimer (initializeGame now _)).cards.length = _
    rw [startTimer_cards]
    exact createCards_length _
  refine ⟨?_, e, ?_⟩
  · show (startTimer (initializeGame now _)).gameState = _
    rw [startTimer_gameState]
    rfl
  · intro i hlow hi
    rw [e] at hi
    show ((startTimer (initializeGame now
        { s with gameState := .playing })).cards.getD i defaultCard).symbol = none
    rw [startTimer_cards]
    exact createCards_symbol_none _ hshort hch i hlow hi

/-- C5 amended witness: medium board from a one-symbol pool. -/
theorem claim_C5_witness :
    (startGame 0 sShort).gameState = .playing ∧
    (startGame 0 sShort).cards.length = 12 ∧
    ((startGame 0 sShort).cards.getD 11 defaultCard).symbol = none := by
  have h := claim_C5 sShort 0 (by decide) (fun i => Nat.zero_le i)
  exact ⟨h.1, h.2.1, h.2.2 11 (by decide) (by rw [h.2.1]; decide)⟩

/-- A menu state with a six-symbol pool, exactly enough for medium. -/
def sSix : GameState :=
  { gameState := .menu, cards := [], flippedCards := [], matchedPairs := 0,
    score := 0, moves := 0, level := 1, startTime := 0, gameTime := 0,
    difficulty := .medium, isPaused := false,
    cardSymbols := ["A", "B", "C", "D", "E", "F"],
    canvasW := 860, canvasH := 660, choices := chZero, timerId := none,
    liveIntervals := [], nextTimer := 1 }

/-- C6: with a sufficient distinct pool, board generation yields exactly
`rows*cols` cards, each chosen symbol on exactly two cards, and no two
cards with overlapping pixel rectangles. -/
theorem claim_C6 (s : GameState)
    (hpool : (difficulties s.difficulty).rows * (difficulties s.difficulty).cols / 2 ≤
      s.cardSymbols.length)
    (hnd : s.cardSymbols.Nodup)
    (hch : ∀ i, s.choices i ≤ i) :
    (createCards s).cards.length =
      (difficulties s.difficulty).rows * (difficulties s.difficulty).cols ∧
    (∀ sym ∈ s.cardSymbols.take
        ((difficulties s.difficulty).rows * (difficulties s.difficulty).cols / 2),
      ((createCards s).cards.map (fun c => c.symbol)).count (some sym) = 2) ∧
    (∀ i k, i < (createCards s).cards.length → k < (createCards s).cards.length →
      i ≠ k → ¬ rectOverlap ((createCards s).cards.getD i defaultCard)
        ((createCards s).cards.getD k defaultCard)) :=
  ⟨createCards_length s,
   fun sym hsym => createCards_count s hpool hnd hch sym hsym,
   fun i k hi hk hik => createCards_geomOK s i k hi hk hik⟩

/-- C6 witness: the medium board over a six-symbol pool. -/
theorem claim_C6_witness :
    (createCards sSix).cards.length = 12 ∧
    ((createCards sSix).cards.map (fun c => c.symbol)).count (some "A") = 2 ∧
    ¬ rectOverlap ((createCards sSix).cards.getD 0 defaultCard)
      ((createCards sSix).cards.getD 1 defaultCard) := by
  have h := claim_C6 sSix (by decide) (by decide) (fun i => Nat.zero_le i)
  exact ⟨h.1, h.2.1 "A" (by decide),
    h.2.2 0 1 (by rw [h.1]; decide) (by rw [h.1]; decide) (by decide)⟩

/-- C7 counterexample: the frozen claim says elapsed time after resuming
excludes the wall-clock time spent paused.  On the trace
start (t=0) → tick (t=100) → pause → tick (t=60000, no accumulation) →
resume → tick (t=60100), the exclusion reading predicts `gameTime = 200`
(100 before the pause plus 100 після resuming), but `startTime` is never
adjusted on resume, so the first tick after resuming stores the full
wall-clock 60100. -/
theorem claim_C7_counterexample :
    (tick 60000 (togglePause (tick 100 sTwo))).gameTime = 100 ∧
    (tick 60100 (togglePause (tick 60000 (togglePause (tick 100 sTwo))))).gameTime
      = 60100 ∧
    (60100 : Nat) ≠ 200 := by
  refine ⟨rfl, rfl, by decide⟩

/-- C7 amended: `togglePause` twice is the identity on the whole state
(so in particular the phase returns to its original value), and while
paused no tick changes `gameTime`; but the first tick after resuming sets
`gameTime := now − startTime`, which *includes* the wall-clock time spent
paused, because `startTime` is never shifted on resume. -/
theorem claim_C7 :
    (∀ s : GameState, togglePause (togglePause s) = s) ∧
    (∀ (s : GameState) (now : Nat), s.isPaused = true → tick now s = s) ∧
    (∀ (s : GameState) (now : Nat), s.gameState = .playing → s.isPaused = false →
      (tick now s).gameTime = now - s.startTime) := by
  refine ⟨?_, ?_, ?_⟩
  · intro s
    unfold togglePause
    by_cases h : s.gameState ≠ .playing
    · rw [if_pos h, if_pos h]
    · rw [if_neg h, if_neg h]
      rw [Bool.not_not]
  · intro s now h
    unfold tick
    rw [if_neg (by simp [h])]
  · intro s now hph hps
    unfold tick
    rw [if_pos (by simp [hph, hps])]

/-- C7 witness: the three amended facts at a concrete playing state. -/
theorem claim_C7_witness :
    togglePause (togglePause sTwo) = sTwo ∧
    tick 500 (togglePause sTwo) = togglePause sTwo ∧
    (tick 60100 sTwo).gameTime = 60100 - sTwo.startTime := by
  refine ⟨claim_C7.1 sTwo, claim_C7.2.1 (togglePause sTwo) 500 ?_,
    claim_C7.2.2 sTwo 60100 rfl rfl⟩
  decide

/-- C8 counterexample: `gameComplete` leaves the Playing phase but does
not cancel the tick interval — it stays live (its callback merely no-ops
outside Playing). -/
theorem claim_C8_counterexample :
    (gameComplete (startGame 0 sMenu)).gameState = .completed ∧
    (gameComplete (startGame 0 sMenu)).liveIntervals = [1] ∧
    (gameComplete (startGame 0 sMenu)).liveIntervals ≠ [] := by
  refine ⟨rfl, rfl, by decide⟩

/-- C8 amended: leaving Playing (completion, return to menu, new game)
does *not* cancel the interval — `gameComplete`, `showStartScreen` and
`newGame` leave the live-interval set untouched, and the tick callback is
a no-op outside Playing; however `startTimer` always clears the recorded
interval before registering a new one, so every reachable state has at
most one live interval. -/
theorem claim_C8 :
    (∀ s : GameState, Reach s → s.liveIntervals.length ≤ 1) ∧
    (∀ s : GameState, (gameComplete s).liveIntervals = s.liveIntervals ∧
      (showStartScreen s).liveIntervals = s.liveIntervals ∧
      (newGame s).liveIntervals = s.liveIntervals) ∧
    (∀ (now : Nat) (s : GameState), s.gameState ≠ .playing → tick now s = s) ∧
    (∀ (s : GameState) (t : Nat), s.timerId = some t →
      (startTimer s).liveIntervals = s.liveIntervals.erase t ++ [s.nextTimer]) := by
  refine ⟨?_, ?_, ?_, ?_⟩
  · intro s hs
    rcases (reach_inv hs).2.1 with ⟨_, h2⟩ | ⟨t, _, h2⟩ <;> simp [h2]
  · intro s
    exact ⟨rfl, rfl, rfl⟩
  · intro now s h
    unfold tick
    rw [if_neg (by simp [h])]
  · intro s t h
    unfold startTimer
    rw [h]

/-- C8 witness: the amended facts at concrete states. -/
theorem claim_C8_witness :
    (startGame 0 sMenu).liveIntervals.length ≤ 1 ∧
    tick 7 sMenu = sMenu ∧
    (startTimer (startGame 0 sMenu)).liveIntervals = [1].erase 1 ++ [2] := by
  refine ⟨claim_C8.1 _ (Reach.start 0 (Reach.init chZero 860 660)),
    claim_C8.2.2.1 7 sMenu (by decide), ?_⟩
  exact claim_C8.2.2.2 (startGame 0 sMenu) 1 rfl

/-- C9: the best-score record is written only when strictly beaten:
after a strictly better score the stored record reads back as that
score; a lower-or-equal score leaves the store untouched; and the stored
value at every key is monotonically non-decreasing across saves. -/
theorem claim_C9 (s : GameState) (st : Store) :
    (s.score > (getItem ("bestScore_" ++ difficultyName s.difficulty) st).getD 0 →
      getItem ("bestScore_" ++ difficultyName s.difficulty) (saveBestScore s st)
        = some s.score) ∧
    (s.score ≤ (getItem ("bestScore_" ++ difficultyName s.difficulty) st).getD 0 →
      saveBestScore s st = st) ∧
    (∀ k, (getItem k st).getD 0 ≤ (getItem k (saveBestScore s st)).getD 0) := by
  refine ⟨?_, ?_, ?_⟩
  · intro h
    unfold saveBestScore
    rw [if_pos h]
    unfold getItem setItem
    simp
  · intro h
    unfold saveBestScore
    rw [if_neg (not_lt.mpr h)]
  · intro k
    simp only [saveBestScore]
    split
    · rename_i h
      unfold getItem setItem
      by_cases hk : k = "bestScore_" ++ difficultyName s.difficulty
      · rw [if_pos hk]
        rw [hk]
        exact le_of_lt h
      · rw [if_neg hk]
    · exact le_refl _

/-- A completed easy game with final score 145. -/
def sDone : GameState :=
  { gameState := .completed, cards := [], flippedCards := [], matchedPairs := 1,
    score := 145, moves := 1, level := 1, startTime := 0, gameTime := 0,
    difficulty := .easy, isPaused := false, cardSymbols := cardSymbols,
    canvasW := 860, canvasH := 660, choices := chZero, timerId := some 1,
    liveIntervals := [1], nextTimer := 2 }

/-- The empty best-score store. -/
def stEmpty : Store := fun _ => none

/-- C9 witness: store 145, read it back; then a 0-score completion
leaves the stored best untouched; and the easy-key value never
decreased. -/
theorem claim_C9_witness :
    getItem ("bestScore_" ++ difficultyName sDone.difficulty)
      (saveBestScore sDone stEmpty) = some 145 ∧
    saveBestScore { sDone with score := 0 } (saveBestScore sDone stEmpty)
      = saveBestScore sDone stEmpty ∧
    (getItem "bestScore_easy" stEmpty).getD 0 ≤
      (getItem "bestScore_easy" (saveBestScore sDone stEmpty)).getD 0 := by
  refine ⟨(claim_C9 sDone stEmpty).1 (by decide), ?_, (claim_C9 sDone stEmpty).2.2 _⟩
  exact (claim_C9 { sDone with score := 0 } (saveBestScore sDone stEmpty)).2.1 (by decide)

/-- A paused playing state (pause screen showing). -/
def sPaused : GameState := { sTwo with isPaused := true }

theorem startTimer_isPaused (s : GameState) :
    (startTimer s).isPaused = s.isPaused := by
  unfold startTimer
  rcases hti : s.timerId with _ | t <;> simp [hti]

theorem startTimer_score (s : GameState) : (startTimer s).score = s.score := by
  unfold startTimer
  rcases hti : s.timerId with _ | t <;> simp [hti]

theorem startTimer_moves (s : GameState) : (startTimer s).moves = s.moves := by
  unfold startTimer
  rcases hti : s.timerId with _ | t <;> simp [hti]

theorem startTimer_matchedPairs (s : GameState) :
    (startTimer s).matchedPairs = s.matchedPairs := by
  unfold startTimer
  rcases hti : s.timerId with _ | t <;> simp [hti]

theorem startTimer_flippedCards (s : GameState) :
    (startTimer s).flippedCards = s.flippedCards := by
  unfold startTimer
  rcases hti : s.timerId with _ | t <;> simp [hti]

/-- C10: `startGame` resets the session counters and the flip buffer but
never touches `isPaused`: restarted from a paused state the game comes up
still paused, every canvas click is a silent no-op, and only a further
`togglePause` clears the flag. -/
theorem claim_C10 (s : GameState) (now : Nat) (hp : s.isPaused = true) :
    (startGame now s).isPaused = true ∧
    (startGame now s).score = 0 ∧
    (startGame now s).moves = 0 ∧
    (startGame now s).matchedPairs = 0 ∧
    (startGame now s).flippedCards = [] ∧
    (∀ (now2 : Nat) (x y : ℚ),
      handleCanvasClick now2 x y (startGame now s) = startGame now s) ∧
    (togglePause (startGame now s)).isPaused = false := by
  have hp1 : (startGame now s).isPaused = true := by
    show (startTimer (initializeGame now _)).isPaused = true
    rw [startTimer_isPaused]
    exact hp
  have hgs : (startGame now s).gameState = .playing := by
    show (startTimer (initializeGame now _)).gameState = _
    rw [startTimer_gameState]
    rfl
  refine ⟨hp1, ?_, ?_, ?_, ?_, ?_, ?_⟩
  · show (startTimer (initializeGame now _)).score = 0
    rw [startTimer_score]
    rfl
  · show (startTimer (initializeGame now _)).moves = 0
    rw [startTimer_moves]
    rfl
  · show (startTimer (initializeGame now _)).matchedPairs = 0
    rw [startTimer_matchedPairs]
    rfl
  · show (startTimer (initializeGame now _)).flippedCards = []
    rw [startTimer_flippedCards]
    rfl
  · intro now2 x y
    unfold handleCanvasClick
    rw [if_pos (Or.inr hp1)]
  · unfold togglePause
    rw [if_neg (by rw [hgs]; simp)]
    show (!(startGame now s).isPaused) = false
    rw [hp1]
    rfl

/-- C10 witness: restart from the pause screen. -/
theorem claim_C10_witness :
    (startGame 9 sPaused).isPaused = true ∧
    (startGame 9 sPaused).score = 0 ∧
    handleCanvasClick 10 3 4 (startGame 9 sPaused) = startGame 9 sPaused ∧
    (togglePause (startGame 9 sPaused)).isPaused = false := by
  have h := claim_C10 sPaused 9 rfl
  exact ⟨h.1, h.2.1, h.2.2.2.2.2.1 10 3 4, h.2.2.2.2.2.2⟩
